import Mathlib

/-!
# Speed Layer — Resource Governance Engine, shallow embedding

This file embeds the core of the Speed Layer loader (src/loader-do.js, with
src/loader-v2.js modelled separately where the two variants differ) and proves
the frozen claims about it.

Modelling conventions:
* JS strings are Lean `String`s; `url.includes(pattern)` is substring
  containment on the character sequence.
* The host regular-expression engine (`RegExp`) is a browser primitive, not
  repository code.  It is abstracted: either as a total oracle
  `rtest : String → String → Bool` standing for "the cached compiled regex of
  this slash-delimited pattern tests true on this url" (classification
  claims), or, where the repository's own compile-cache logic is at stake, as
  a `RegexEngine` record whose `compile` returns `none` exactly when the
  `RegExp` constructor would throw (pattern-matcher claims).
* JS `null`/`undefined` manifest state is `Option Manifest`; absent list
  fields behave as `[]` (the code reads them as `xs || []`), absent boolean
  fields behave as `false` (the code only tests truthiness).
* DOM side effects (element insertion, queue pushes) are modelled as explicit
  state on lists; the order of `forEach` iteration is list order.
-/

namespace SpeedLayer

/-- JS `url.includes(pattern)`: `pattern` occurs contiguously in `url`
(the empty pattern is contained in every string, as in JS). -/
def containsSubstr (url pat : String) : Bool := decide (pat.data <:+: url.data)

/-- Manifest `pages` object: `{mode, patterns}`.  An absent `mode` is the
empty string (the code reads `pageConfig.mode || 'all'`); absent `patterns`
is `[]`. -/
structure PagesConfig where
  mode : String
  patterns : List String
  deriving DecidableEq, Repr

/-- Per-hostname policy document (§3 of the manifest schema), restricted to
the fields the governed claims read.  Absent list fields are `[]`; absent
boolean fields are `false` (`enabled` is `true` unless explicitly `false`,
mirroring the `manifest.enabled === false` check); absent `pages` is `none`. -/
structure Manifest where
  enabled : Bool := true
  debug : Bool := false
  allowScripts : List String := []
  deferScripts : List String := []
  delayedScripts : List String := []
  blockScripts : List String := []
  preconnect : List String := []
  disableInterception : Bool := false
  pages : Option PagesConfig := none
  deriving DecidableEq, Repr

/-! ## Pattern matcher (loader-do.js lines 109–122, loader-v2.js 78–95)

`matchesPattern(url, patterns)` returns false on an empty url or empty
pattern list, and otherwise tests each pattern: substring containment first,
then — for slash-delimited patterns — the compiled regex (a failed compile
tests false).  The regex step is abstracted by the oracle `rtest`. -/

def matchesPattern (rtest : String → String → Bool) (url : String)
    (patterns : List String) : Bool :=
  if url = "" then false
  else if patterns = [] then false
  else patterns.any fun p =>
    containsSubstr url p ||
      (p.startsWith "/" && p.endsWith "/" && rtest p url)

/-- loader-do.js lines 124–128: `shouldBlockScript`. -/
def shouldBlockScript (rtest : String → String → Bool) (m : Option Manifest)
    (src : String) : Bool :=
  match m with
  | none => false
  | some mf => if src = "" then false else matchesPattern rtest src mf.blockScripts

/-- loader-do.js lines 130–134: `shouldAllowScript`. -/
def shouldAllowScript (rtest : String → String → Bool) (m : Option Manifest)
    (src : String) : Bool :=
  match m with
  | none => false
  | some mf => if src = "" then false else matchesPattern rtest src mf.allowScripts

/-- loader-do.js lines 136–140: `shouldDeferScript`.  Returns `true` when the
manifest is still `null` or the src is empty, otherwise tests `deferScripts`. -/
def shouldDeferScript (rtest : String → String → Bool) (m : Option Manifest)
    (src : String) : Bool :=
  match m with
  | none => true
  | some mf => if src = "" then true else matchesPattern rtest src mf.deferScripts

/-- loader-do.js lines 142–146: `shouldDelayScript`. -/
def shouldDelayScript (rtest : String → String → Bool) (m : Option Manifest)
    (src : String) : Bool :=
  match m with
  | none => false
  | some mf => if src = "" then false else matchesPattern rtest src mf.delayedScripts

/-! ## Classification paths -/

/-- Effect of the document-mutation observer on a newly seen script node
(loader-do.js `observeScripts`, lines 505–562): block → node removed;
allow → early return (the script loads); delay/defer → node detached, a
QueuedResource recorded; no branch taken → the node is left alone and loads
immediately (`passThrough`). -/
inductive ObserverAction where
  | block | allow | delay | defer | passThrough
  deriving DecidableEq, Repr

/-- Branch structure of the observer's script handling, in source order:
block, then allow, then delay, then defer; otherwise fall through.
A node with an empty `src` is never processed (`node.src` is falsy). -/
def observerClassify (rtest : String → String → Bool) (m : Option Manifest)
    (src : String) : ObserverAction :=
  if src = "" then .passThrough
  else if shouldBlockScript rtest m src then .block
  else if shouldAllowScript rtest m src then .allow
  else if shouldDelayScript rtest m src then .delay
  else if shouldDeferScript rtest m src then .defer
  else .passThrough

/-- Effect of the Proxy `set` trap on assignment of `src`
(loader-do.js `interceptScripts`, lines 432–475): `applySrc` means the
assignment is forwarded to the real element and the fetch starts at once
(taken by the allow branch and by the final fall-through; an empty/falsy
value is also forwarded unmodified); `queueDelay` / `queueDefer` mean the
assignment is suppressed and a QueuedResource is pushed onto
`queuedDelayedScripts` / `queuedScripts`.  The trap never consults
`shouldBlockScript`. -/
inductive ProxyEffect where
  | applySrc | queueDelay | queueDefer
  deriving DecidableEq, Repr

def proxySetTrap (rtest : String → String → Bool) (m : Option Manifest)
    (src : String) : ProxyEffect :=
  if src = "" then .applySrc
  else if shouldAllowScript rtest m src then .applySrc
  else if shouldDelayScript rtest m src then .queueDelay
  else if shouldDeferScript rtest m src then .queueDefer
  else .applySrc

/-! ## Compile cache for slash-delimited patterns (loader-do.js lines 96–122)

`getRegex` compiles the interior of a slash-delimited pattern once, caching
the result (including a `null` result when the `RegExp` constructor throws)
under the raw pattern string; later look-ups never recompile.  The host
engine is abstracted as a `RegexEngine`: `compile` returns `none` exactly on
the interiors that would throw, `test` is the compiled regex's `test`. -/

structure RegexEngine (ρ : Type) where
  compile : String → Option ρ
  test : ρ → String → Bool

/-- The `_regexCache` `Map`, as an association list (first binding wins;
the code inserts a key at most once). -/
abbrev RegexCache (ρ : Type) := List (String × Option ρ)

/-- JS `pattern.slice(1, -1)`: drop the first and last character. -/
def sliceInterior (p : String) : String := String.mk ((p.data.drop 1).dropLast)

/-- loader-do.js `getRegex` (lines 98–107): look up the raw pattern; on a
miss, compile the interior (a throwing compile stores `none`) and cache it. -/
def getRegex {ρ : Type} (E : RegexEngine ρ) (cache : RegexCache ρ)
    (p : String) : Option ρ × RegexCache ρ :=
  match cache.lookup p with
  | some r => (r, cache)
  | none =>
    let r := E.compile (sliceInterior p)
    (r, (p, r) :: cache)

/-- One pattern of the `patterns.some` body (loader-do.js lines 112–121):
substring first; else, for slash-delimited patterns, the cached regex
(`null` regex tests false); else false. -/
def patternStep {ρ : Type} (E : RegexEngine ρ) (cache : RegexCache ρ)
    (url p : String) : Bool × RegexCache ρ :=
  if containsSubstr url p then (true, cache)
  else if p.startsWith "/" && p.endsWith "/" then
    match getRegex E cache p with
    | (some re, c) => (E.test re url, c)
    | (none, c) => (false, c)
  else (false, cache)

/-- `patterns.some(...)`, threading the cache and short-circuiting. -/
def matchesSomeAux {ρ : Type} (E : RegexEngine ρ) (url : String) :
    List String → RegexCache ρ → Bool × RegexCache ρ
  | [], c => (false, c)
  | p :: ps, c =>
    match patternStep E c url p with
    | (true, c') => (true, c')
    | (false, c') => matchesSomeAux E url ps c'

/-- loader-do.js `matchesPattern` with the real compile cache. -/
def matchesPatternCached {ρ : Type} (E : RegexEngine ρ) (cache : RegexCache ρ)
    (url : String) (patterns : List String) : Bool × RegexCache ρ :=
  if url = "" then (false, cache)
  else if patterns = [] then (false, cache)
  else matchesSomeAux E url patterns cache

/-- Every cache binding is what `E.compile` yields on the pattern's interior —
the invariant `getRegex` establishes and preserves. -/
def CacheConsistent {ρ : Type} (E : RegexEngine ρ) (c : RegexCache ρ) : Prop :=
  ∀ p r, c.lookup p = some r → r = E.compile (sliceInterior p)

/-! ## Page gate (loader-do.js lines 152–221) -/

/-- loader-do.js `matchesPagePattern` (lines 152–171), in source order:
exact equality; wildcard patterns go to the host regex built from the
pattern (abstracted as `wc`); trailing-slash patterns match by prefix. -/
def matchesPagePattern (wc : String → String → Bool)
    (pathname pat : String) : Bool :=
  if pathname = pat then true
  else if pat.contains '*' then wc pathname pat
  else if pat.endsWith "/" && pathname.startsWith pat then true
  else false

/-- loader-do.js `shouldRunOnCurrentPage` (lines 173–221).  No manifest or no
`pages` config: run everywhere.  Mode `all` (also the default for an absent
mode): true.  Mode `include`: any pattern matches.  Mode `exclude`: no
pattern matches.  Any other mode: true (fail open, with a console warning). -/
def shouldRunOnCurrentPage (wc : String → String → Bool)
    (m : Option Manifest) (path : String) : Bool :=
  match m with
  | none => true
  | some mf =>
    match mf.pages with
    | none => true
    | some pc =>
      let mode := if pc.mode = "" then "all" else pc.mode
      if mode = "all" then true
      else if mode = "include" then pc.patterns.any (matchesPagePattern wc path)
      else if mode = "exclude" then !(pc.patterns.any (matchesPagePattern wc path))
      else true

/-! ## Manifest loader (loader-do.js lines 251–340; loader-v2.js 119–156) -/

/-- Error-shape of one failed attempt: the thrown value's discriminating
properties.  `abortErr` is `err.name === 'AbortError'` (the timeout abort);
`syntaxErr` is `err instanceof SyntaxError` (JSON parse failure);
`generic` is every other rejection. -/
inductive ErrKind where
  | abortErr | syntaxErr | generic
  deriving DecidableEq, Repr

/-- The five error classes of §7. -/
inductive FetchErrorType where
  | TIMEOUT | NOT_FOUND | SERVER_ERROR | JSON_PARSE_ERROR | NETWORK_ERROR
  deriving DecidableEq, Repr

/-- loader-do.js `classifyFetchError` (lines 258–264), in source order;
`status` is the HTTP status when one was observed (`err._httpStatus ||
httpStatus`), `none` when the fetch rejected without a response. -/
def classifyFetchError (k : ErrKind) (status : Option Nat) : FetchErrorType :=
  if k = ErrKind.abortErr then .TIMEOUT
  else if status = some 404 then .NOT_FOUND
  else if (status.map (fun s => decide (500 ≤ s))).getD false then .SERVER_ERROR
  else if k = ErrKind.syntaxErr then .JSON_PARSE_ERROR
  else .NETWORK_ERROR

/-- Outcome of one fetch attempt, as observed by `tryFetch`'s promise chain. -/
inductive AttemptResult where
  | success (m : Manifest)
  | failure (k : ErrKind) (status : Option Nat)
  deriving DecidableEq

/-- The DealerOn hardcoded fallback manifest (loader-do.js lines 325–333). -/
def fallbackDO : Manifest :=
  { allowScripts := ["dealeron.js", "dlron.us", "jquery", "bootstrap"]
    deferScripts := ["analytics", "tracking", "gtag", "gtm", "googletagmanager",
                     "facebook", "doubleclick"]
    delayedScripts := ["carcodesms", "harmoniq", "sincrod", "personalization"]
    preconnect := []
    debug := false
    disableInterception := true }

/-- The v2 hardcoded fallback manifest (loader-v2.js lines 146–152).  It has
no `disableInterception` key, so the field reads as false. -/
def fallbackV2 : Manifest :=
  { allowScripts := []
    deferScripts := ["analytics", "tracking", "gtag", "facebook", "doubleclick",
                     "googlesyndication"]
    preconnect := []
    debug := false }

def maxAttempts : Nat := 3

/-- Backoff before retrying after failed attempt `a`:
`Math.pow(2, attempt - 1) * 1000` (loader-do.js line 309). -/
def backoffMs (a : Nat) : Nat := 2 ^ (a - 1) * 1000

/-- Everything observable about one run of `loadManifest`: the manifest the
promise resolves with, how many fetch attempts ran, the backoff waits taken
between consecutive attempts (in order), and whether the `manifest_error`
telemetry event fired (it fires exactly on the final-failure path). -/
structure LoadTrace where
  manifest : Manifest
  attempts : Nat
  backoffs : List Nat
  telemetry : Bool
  deriving DecidableEq, Repr

/-- The `noRetry` flag of loader-do.js line 306: the non-retryable error
classes. -/
def NoRetryClass (k : ErrKind) (st : Option Nat) : Prop :=
  classifyFetchError k st = FetchErrorType.NOT_FOUND ∨
  classifyFetchError k st = FetchErrorType.JSON_PARSE_ERROR

instance (k : ErrKind) (st : Option Nat) : Decidable (NoRetryClass k st) :=
  inferInstanceAs (Decidable (_ = _ ∨ _ = _))

/-- One level of loader-do.js `tryFetch` (lines 284–337).  `oc (aPrev + 1)`
is the outcome of this attempt.  `NOT_FOUND` and `JSON_PARSE_ERROR` never
retry; other failures retry while `attempt < maxAttempts`, sleeping
`backoffMs` first (`retry` is the trace of the remaining attempts);
otherwise the fallback manifest is installed and the `manifest_error`
telemetry event fires. -/
def loadOnce (oc : Nat → AttemptResult) (aPrev : Nat) (retry : LoadTrace) :
    LoadTrace :=
  match oc (aPrev + 1) with
  | .success m => ⟨m, aPrev + 1, [], false⟩
  | .failure k st =>
    if NoRetryClass k st then ⟨fallbackDO, aPrev + 1, [], true⟩
    else if aPrev + 1 < maxAttempts then
      ⟨retry.manifest, retry.attempts, backoffMs (aPrev + 1) :: retry.backoffs,
        retry.telemetry⟩
    else ⟨fallbackDO, aPrev + 1, [], true⟩

/-- The retry loop, by fuel over the remaining attempts.  `loadManifestDO`
supplies `maxAttempts` fuel, which the `attempt < maxAttempts` guard in
`loadOnce` makes sufficient: the `fuel = 0` base (mirroring the
final-failure trace) is never reached from there. -/
def loadFrom (oc : Nat → AttemptResult) : Nat → Nat → LoadTrace
  | 0, aPrev => ⟨fallbackDO, aPrev + 1, [], true⟩
  | fuel + 1, aPrev => loadOnce oc aPrev (loadFrom oc fuel (aPrev + 1))

/-- loader-do.js `loadManifest` after the manifest URL is resolved
(the missing-attribute early return is outside every claim's scope). -/
def loadManifestDO (oc : Nat → AttemptResult) : LoadTrace :=
  loadFrom oc maxAttempts 0

/-- loader-v2.js `loadManifest` (lines 119–156): a single attempt, no
timeout, no retry, no telemetry; any failure installs `fallbackV2`. -/
def loadManifestV2 (oc : AttemptResult) : LoadTrace :=
  match oc with
  | .success m => ⟨m, 1, [], false⟩
  | .failure _ _ => ⟨fallbackV2, 1, [], false⟩

/-! ## Tier executor (loader-do.js lines 647–745; loader-v2.js 515–619)

A tier queue is a list of queued resources in enqueue (push) order.  A flush
walks the queue with `forEach`, re-materialising each resource into the
document, then replaces the queue with `[]`; the empty-queue early return is
the identity.  The `executed` list records, in order, the resources whose
replacement elements were inserted (DOM insertion order). -/

structure TierState (R : Type) where
  queue : List R
  executed : List R
  deriving DecidableEq, Repr

/-- `STATE.queued….push(item)`. -/
def enqueueResource {R : Type} (s : TierState R) (r : R) : TierState R :=
  { s with queue := s.queue ++ [r] }

/-- `executeQueuedScripts` / `executeDelayedScripts` on one tier:
early-return on an empty queue, otherwise execute every queued resource in
queue order and install a fresh empty queue. -/
def flushTier {R : Type} (s : TierState R) : TierState R :=
  if s.queue.isEmpty then s
  else { queue := [], executed := s.executed ++ s.queue }

/-- The attribute-application sequence `executeQueuedScripts` performs on one
replacement script (loader-do.js lines 657–664): `newScript.src = src` first,
then `setAttribute(name, value)` for every original attribute whose name is
not `src`, in original order.  Each pair is `(name, value)`; the list is the
order in which attributes are applied to the new element. -/
def rematerializeOps (src : String) (attrs : List (String × String)) :
    List (String × String) :=
  ("src", src) :: attrs.filter (fun a => !(a.1 == "src"))

/-! ## Trigger controller (loader-do.js lines 747–812)

Engine state restricted to what the three triggers read and write: the three
one-shot flags and the three queues they flush, plus the cross-tier
`executed` log (order of DOM insertions across all flushes). -/

structure EngineState (R : Type) where
  userInteracted : Bool
  idleCallbackFired : Bool
  delayedCallbackFired : Bool
  queuedScripts : List R
  queuedIframes : List R
  queuedDelayedScripts : List R
  executed : List R
  deriving DecidableEq, Repr

/-- `executeQueuedScripts` (lines 647–677): flush the defer tier. -/
def execScripts {R : Type} (s : EngineState R) : EngineState R :=
  if s.queuedScripts.isEmpty then s
  else { s with queuedScripts := [], executed := s.executed ++ s.queuedScripts }

/-- `executeQueuedIframes` (lines 679–693): flush the lazy-iframe queue. -/
def execIframes {R : Type} (s : EngineState R) : EngineState R :=
  if s.queuedIframes.isEmpty then s
  else { s with queuedIframes := [], executed := s.executed ++ s.queuedIframes }

/-- `executeDelayedScripts` (lines 695–745): flush the delay tier. -/
def execDelayed {R : Type} (s : EngineState R) : EngineState R :=
  if s.queuedDelayedScripts.isEmpty then s
  else { s with queuedDelayedScripts := [],
                executed := s.executed ++ s.queuedDelayedScripts }

/-- `onUserInteraction` (lines 747–761): once-only on `userInteracted`;
detaches the listeners, then flushes defer, iframes, and delay. -/
def onUserInteraction {R : Type} (s : EngineState R) : EngineState R :=
  if s.userInteracted then s
  else
    execDelayed (execIframes (execScripts { s with userInteracted := true }))

/-- `onIdle` (lines 763–774): once-only on `idleCallbackFired`; sets the
flag, then flushes defer and iframes only if interaction has not fired
(setting the flag does not touch `userInteracted`). -/
def onIdle {R : Type} (s : EngineState R) : EngineState R :=
  if s.idleCallbackFired then s
  else if s.userInteracted then { s with idleCallbackFired := true }
  else execIframes (execScripts { s with idleCallbackFired := true })

/-- `onDelayed` (lines 776–786): once-only on `delayedCallbackFired`; sets
the flag, then flushes the delay tier only if interaction has not fired. -/
def onDelayed {R : Type} (s : EngineState R) : EngineState R :=
  if s.delayedCallbackFired then s
  else if s.userInteracted then { s with delayedCallbackFired := true }
  else execDelayed { s with delayedCallbackFired := true }

/-- The three racing triggers. -/
inductive Trigger where
  | interaction | idle | delayed
  deriving DecidableEq, Repr

def applyTrigger {R : Type} : Trigger → EngineState R → EngineState R
  | .interaction, s => onUserInteraction s
  | .idle, s => onIdle s
  | .delayed, s => onDelayed s

/-- Fire a sequence of trigger events in order. -/
def runTriggers {R : Type} (ts : List Trigger) (s : EngineState R) : EngineState R :=
  ts.foldl (fun st t => applyTrigger t st) s

/-- All resources the engine is accountable for: already executed plus still
queued, in a fixed order. -/
def allRes {R : Type} (s : EngineState R) : List R :=
  s.executed ++ s.queuedScripts ++ s.queuedIframes ++ s.queuedDelayedScripts

/-! ## Concrete inputs used by counterexamples and witnesses -/

/-- Regex oracle for inputs whose pattern lists contain no slash-delimited
entries (the oracle is then never consulted). -/
def rtestFalse : String → String → Bool := fun _ _ => false

/-- A loaded manifest whose four classification lists are all empty. -/
def emptyManifest : Manifest := {}

/-- A loaded manifest listing the same pattern in `allowScripts` and
`blockScripts`. -/
def bothManifest : Manifest :=
  { allowScripts := ["core.js"], blockScripts := ["core.js"] }

/-! ## C1 — default classification of an unmatched URL -/

/-- C1 counterexample: with a manifest loaded in memory whose four lists are
all empty — so the URL matches no pattern in any list — the script is NOT
queued to the defer tier: the observer leaves the node alone
(`passThrough`, it loads immediately), the Proxy trap forwards the src
assignment (`applySrc`), and `shouldDeferScript` is false. -/
theorem c1_counterexample :
    observerClassify rtestFalse (some emptyManifest) "x/app.js" ≠ ObserverAction.defer ∧
    proxySetTrap rtestFalse (some emptyManifest) "x/app.js" ≠ ProxyEffect.queueDefer ∧
    shouldDeferScript rtestFalse (some emptyManifest) "x/app.js" = false := by
  decide

/-- C1 amended: for every script URL classified while a manifest is loaded in
memory, if the URL matches no pattern in any of the four lists, then both
classification paths let the script load immediately — it is not queued to
any tier.  (The defer-by-default behaviour holds only while the manifest is
still null, see C10.) -/
theorem c1_unmatched_loads_immediately (rtest : String → String → Bool)
    (m : Manifest) (src : String) (hsrc : src ≠ "")
    (hb : matchesPattern rtest src m.blockScripts = false)
    (ha : matchesPattern rtest src m.allowScripts = false)
    (hdl : matchesPattern rtest src m.delayedScripts = false)
    (hdf : matchesPattern rtest src m.deferScripts = false) :
    observerClassify rtest (some m) src = ObserverAction.passThrough ∧
    proxySetTrap rtest (some m) src = ProxyEffect.applySrc := by
  unfold observerClassify proxySetTrap shouldBlockScript shouldAllowScript
    shouldDelayScript shouldDeferScript
  simp [hsrc, hb, ha, hdl, hdf]

/-- C1 witness: the amended theorem at a concrete manifest and URL. -/
theorem c1_witness :
    observerClassify rtestFalse (some emptyManifest) "x/app.js" = ObserverAction.passThrough ∧
    proxySetTrap rtestFalse (some emptyManifest) "x/app.js" = ProxyEffect.applySrc :=
  c1_unmatched_loads_immediately rtestFalse emptyManifest "x/app.js"
    (by decide) (by decide) (by decide) (by decide) (by decide)

/-! ## C2 — precedence between allow and block -/

/-- C2 counterexample: a URL matching both an `allowScripts` and a
`blockScripts` pattern is classified `block` — not `allow` — by the
document-mutation observer, whose branch order is block first. -/
theorem c2_counterexample :
    observerClassify rtestFalse (some bothManifest) "x/core.js" = ObserverAction.block ∧
    observerClassify rtestFalse (some bothManifest) "x/core.js" ≠ ObserverAction.allow ∧
    shouldAllowScript rtestFalse (some bothManifest) "x/core.js" = true ∧
    shouldBlockScript rtestFalse (some bothManifest) "x/core.js" = true := by
  decide

/-- C2 amended: for a URL matching both an allow and a block pattern, the
element-creation override applies the src immediately (its branch order is
allow first and it never consults the block list), but the document-mutation
observer checks block before allow and removes the script permanently. -/
theorem c2_allow_block_precedence (rtest : String → String → Bool)
    (m : Manifest) (src : String) (hsrc : src ≠ "")
    (ha : matchesPattern rtest src m.allowScripts = true)
    (hb : matchesPattern rtest src m.blockScripts = true) :
    proxySetTrap rtest (some m) src = ProxyEffect.applySrc ∧
    observerClassify rtest (some m) src = ObserverAction.block := by
  unfold observerClassify proxySetTrap shouldBlockScript shouldAllowScript
  simp [hsrc, ha, hb]

/-- C2 witness: the amended theorem at a concrete manifest and URL. -/
theorem c2_witness :
    proxySetTrap rtestFalse (some bothManifest) "x/core.js" = ProxyEffect.applySrc ∧
    observerClassify rtestFalse (some bothManifest) "x/core.js" = ObserverAction.block :=
  c2_allow_block_precedence rtestFalse bothManifest "x/core.js"
    (by decide) (by decide) (by decide)

/-! ## C3 — attribute round-trip on re-materialization -/

/-- C3 counterexample: re-materializing a queued script that had one non-src
attribute applies the source FIRST, not last — the last attribute applied is
the copied one. -/
theorem c3_counterexample :
    (rematerializeOps "x/app.js" [("async", "true")]).getLast? ≠
      some ("src", "x/app.js") ∧
    (rematerializeOps "x/app.js" [("async", "true")]).getLast? =
      some ("async", "true") := by
  decide

/-- C3 amended: all original attributes except the source are copied
verbatim, in original order, onto the replacement element; the source is
always the FIRST attribute applied, before every other attribute. -/
theorem c3_rematerialize_roundtrip (src : String)
    (attrs : List (String × String)) :
    (rematerializeOps src attrs).head? = some ("src", src) ∧
    (rematerializeOps src attrs).tail =
      attrs.filter (fun a => !(a.1 == "src")) :=
  ⟨rfl, rfl⟩

/-! ## C8 — FIFO flush -/

/-- C8: flushing a tier executes its queued resources in exact enqueue
order (enqueueing `r1, r2, r3` then flushing appends exactly
`r1, r2, r3`, after anything already queued, to the execution log);
flushing an empty tier is a no-op; after any flush the queue is empty. -/
theorem c8_flush_fifo {R : Type} (s : TierState R) (r1 r2 r3 : R) :
    (flushTier (enqueueResource (enqueueResource (enqueueResource s r1) r2) r3)).executed
        = s.executed ++ (s.queue ++ [r1, r2, r3]) ∧
    (∀ ex : List R, flushTier ⟨[], ex⟩ = ⟨[], ex⟩) ∧
    (flushTier s).queue = [] := by
  refine ⟨?_, ?_, ?_⟩
  · simp [flushTier, enqueueResource]
  · intro ex
    simp [flushTier]
  · unfold flushTier
    split
    · next h => simpa [List.isEmpty_iff] using h
    · rfl

/-! ## C10 — null-manifest window defers everything -/

/-- C10: while the manifest is still null, every non-empty src assigned
through the element-creation override is queued to the defer tier and the
assignment suppressed: the defer predicate is true and the allow, block and
delay predicates are false. -/
theorem c10_null_manifest_defers (rtest : String → String → Bool)
    (src : String) (hsrc : src ≠ "") :
    proxySetTrap rtest none src = ProxyEffect.queueDefer ∧
    shouldDeferScript rtest none src = true ∧
    shouldAllowScript rtest none src = false ∧
    shouldBlockScript rtest none src = false ∧
    shouldDelayScript rtest none src = false := by
  unfold proxySetTrap shouldDeferScript shouldAllowScript shouldBlockScript
    shouldDelayScript
  simp [hsrc]

/-- C10 witness: the theorem at a concrete early-loading script URL. -/
theorem c10_witness :
    proxySetTrap rtestFalse none "x/early.js" = ProxyEffect.queueDefer ∧
    shouldDeferScript rtestFalse none "x/early.js" = true ∧
    shouldAllowScript rtestFalse none "x/early.js" = false ∧
    shouldBlockScript rtestFalse none "x/early.js" = false ∧
    shouldDelayScript rtestFalse none "x/early.js" = false :=
  c10_null_manifest_defers rtestFalse "x/early.js" (by decide)

/-! ## C9 — Page Gate, mode "exclude" -/

/-- The manifest of the spec's scenario: `pages:{mode:"exclude",
patterns:["/checkout"]}`. -/
def checkoutManifest : Manifest :=
  { pages := some ⟨"exclude", ["/checkout"]⟩ }

/-- C9: in mode `exclude` the Page Gate returns true iff the current path
matches none of the configured patterns; path `/checkout` against
`{mode:"exclude", patterns:["/checkout"]}` returns false (exact match);
and any unrecognized mode value returns true (fail open). -/
theorem c9_page_gate (wc : String → String → Bool) (mf : Manifest)
    (pc : PagesConfig) (path : String)
    (hp : mf.pages = some pc) (hm : pc.mode = "exclude") :
    (shouldRunOnCurrentPage wc (some mf) path = true ↔
      ∀ p ∈ pc.patterns, matchesPagePattern wc path p = false) ∧
    shouldRunOnCurrentPage wc (some checkoutManifest) "/checkout" = false ∧
    (∀ (mf' : Manifest) (pc' : PagesConfig) (path' : String),
      mf'.pages = some pc' → pc'.mode ≠ "" → pc'.mode ≠ "all" →
      pc'.mode ≠ "include" → pc'.mode ≠ "exclude" →
      shouldRunOnCurrentPage wc (some mf') path' = true) := by
  refine ⟨?_, ?_, ?_⟩
  · unfold shouldRunOnCurrentPage
    simp only [hp]
    rw [hm]
    simp [List.any_eq_false]
  · unfold shouldRunOnCurrentPage checkoutManifest
    simp [matchesPagePattern]
  · intro mf' pc' path' hp' h1 h2 h3 h4
    unfold shouldRunOnCurrentPage
    simp only [hp']
    simp [h1, h2, h3, h4]

/-- C9 witness: the theorem at the scenario manifest, with a non-matching
path for the iff direction. -/
theorem c9_witness :
    (shouldRunOnCurrentPage rtestFalse (some checkoutManifest) "/inventory" = true ↔
      ∀ p ∈ ["/checkout"], matchesPagePattern rtestFalse "/inventory" p = false) ∧
    shouldRunOnCurrentPage rtestFalse (some checkoutManifest) "/checkout" = false ∧
    (∀ (mf' : Manifest) (pc' : PagesConfig) (path' : String),
      mf'.pages = some pc' → pc'.mode ≠ "" → pc'.mode ≠ "all" →
      pc'.mode ≠ "include" → pc'.mode ≠ "exclude" →
      shouldRunOnCurrentPage rtestFalse (some mf') path' = true) :=
  c9_page_gate rtestFalse checkoutManifest ⟨"exclude", ["/checkout"]⟩ "/inventory"
    rfl rfl

/-! ## C7 — trigger controller: once-only, mutually exclusive in effect -/

theorem execScripts_eq {R : Type} (s : EngineState R) :
    execScripts s = { s with queuedScripts := [],
                             executed := s.executed ++ s.queuedScripts } := by
  unfold execScripts
  split
  · next h =>
    have h' : s.queuedScripts = [] := by simpa [List.isEmpty_iff] using h
    cases s
    simp_all
  · rfl

theorem execIframes_eq {R : Type} (s : EngineState R) :
    execIframes s = { s with queuedIframes := [],
                             executed := s.executed ++ s.queuedIframes } := by
  unfold execIframes
  split
  · next h =>
    have h' : s.queuedIframes = [] := by simpa [List.isEmpty_iff] using h
    cases s
    simp_all
  · rfl

theorem execDelayed_eq {R : Type} (s : EngineState R) :
    execDelayed s = { s with queuedDelayedScripts := [],
                             executed := s.executed ++ s.queuedDelayedScripts } := by
  unfold execDelayed
  split
  · next h =>
    have h' : s.queuedDelayedScripts = [] := by simpa [List.isEmpty_iff] using h
    cases s
    simp_all
  · rfl

/-- After `onIdle` runs, the idle flag is set — the source of once-only. -/
theorem onIdle_fired {R : Type} (s : EngineState R) :
    (onIdle s).idleCallbackFired = true := by
  unfold onIdle
  split
  · next h => exact h
  · split
    · rfl
    · simp [execScripts_eq, execIframes_eq]

theorem onUserInteraction_fired {R : Type} (s : EngineState R) :
    (onUserInteraction s).userInteracted = true := by
  unfold onUserInteraction
  split
  · next h => exact h
  · simp [execScripts_eq, execIframes_eq, execDelayed_eq]

theorem onDelayed_fired {R : Type} (s : EngineState R) :
    (onDelayed s).delayedCallbackFired = true := by
  unfold onDelayed
  split
  · next h => exact h
  · split
    · rfl
    · simp [execDelayed_eq]

/-- A trigger whose one-shot flag is already set is the identity. -/
theorem onIdle_of_fired {R : Type} (s : EngineState R)
    (h : s.idleCallbackFired = true) : onIdle s = s := by
  unfold onIdle
  rw [if_pos h]

theorem onUserInteraction_of_fired {R : Type} (s : EngineState R)
    (h : s.userInteracted = true) : onUserInteraction s = s := by
  unfold onUserInteraction
  rw [if_pos h]

theorem onDelayed_of_fired {R : Type} (s : EngineState R)
    (h : s.delayedCallbackFired = true) : onDelayed s = s := by
  unfold onDelayed
  rw [if_pos h]

/-- Every trigger permutes the accountable-resource pool: nothing is created,
nothing is dropped, queued items only move to the executed log. -/
theorem allRes_applyTrigger_perm {R : Type} (t : Trigger) (s : EngineState R) :
    (allRes (applyTrigger t s)).Perm (allRes s) := by
  cases t with
  | interaction =>
    show (allRes (onUserInteraction s)).Perm (allRes s)
    unfold onUserInteraction
    split
    · exact List.Perm.refl _
    · simp [execScripts_eq, execIframes_eq, execDelayed_eq, allRes,
        List.append_assoc]
  | idle =>
    show (allRes (onIdle s)).Perm (allRes s)
    unfold onIdle
    split
    · exact List.Perm.refl _
    · split
      · exact List.Perm.refl _
      · simp [execScripts_eq, execIframes_eq, allRes, List.append_assoc]
  | delayed =>
    show (allRes (onDelayed s)).Perm (allRes s)
    unfold onDelayed
    split
    · exact List.Perm.refl _
    · split
      · exact List.Perm.refl _
      · simp only [execDelayed_eq, allRes, List.append_assoc, List.append_nil]
        refine List.Perm.append_left s.executed ?_
        have h1 := @List.perm_append_comm _ s.queuedDelayedScripts
            (s.queuedScripts ++ s.queuedIframes)
        simpa [List.append_assoc] using h1

theorem allRes_runTriggers_perm {R : Type} (ts : List Trigger)
    (s : EngineState R) :
    (allRes (runTriggers ts s)).Perm (allRes s) := by
  induction ts generalizing s with
  | nil => exact List.Perm.refl _
  | cons t ts ih =>
    show (allRes (runTriggers ts (applyTrigger t s))).Perm (allRes s)
    exact (ih (applyTrigger t s)).trans (allRes_applyTrigger_perm t s)

theorem executed_sublist_allRes {R : Type} (s : EngineState R) :
    s.executed.Sublist (allRes s) := by
  unfold allRes
  exact ((List.sublist_append_left _ _).trans
    (List.sublist_append_left _ _)).trans (List.sublist_append_left _ _)

/-- C7: (once-only) firing any trigger twice is the same as firing it once;
(idle-then-interaction) from a fresh state, idle flushes the defer and
iframe queues, leaves the delay tier pending, and a later interaction
flushes exactly that pending delay tier; (after interaction) idle and the
delayed timeout only set their flag and flush nothing; and over any sequence
of trigger firings no resource is ever executed twice. -/
theorem c7_trigger_controller {R : Type} (s : EngineState R) :
    (onIdle (onIdle s) = onIdle s ∧
     onUserInteraction (onUserInteraction s) = onUserInteraction s ∧
     onDelayed (onDelayed s) = onDelayed s) ∧
    (s.userInteracted = false → s.idleCallbackFired = false →
      (onIdle s).executed = s.executed ++ s.queuedScripts ++ s.queuedIframes ∧
      (onIdle s).queuedDelayedScripts = s.queuedDelayedScripts ∧
      (onUserInteraction (onIdle s)).executed =
        (onIdle s).executed ++ s.queuedDelayedScripts) ∧
    (s.userInteracted = true →
      onIdle s = { s with idleCallbackFired := true } ∧
      onDelayed s = { s with delayedCallbackFired := true }) ∧
    (∀ ts : List Trigger, (allRes s).Nodup →
      (runTriggers ts s).executed.Nodup) := by
  refine ⟨⟨?_, ?_, ?_⟩, ?_, ?_, ?_⟩
  · exact onIdle_of_fired _ (onIdle_fired s)
  · exact onUserInteraction_of_fired _ (onUserInteraction_fired s)
  · exact onDelayed_of_fired _ (onDelayed_fired s)
  · intro hU hI
    have hidle : onIdle s =
        { s with idleCallbackFired := true, queuedScripts := [],
                 queuedIframes := [],
                 executed := s.executed ++ s.queuedScripts ++ s.queuedIframes } := by
      unfold onIdle
      rw [if_neg (by simp [hI]), if_neg (by simp [hU])]
      simp [execScripts_eq, execIframes_eq, List.append_assoc]
    refine ⟨by rw [hidle], by rw [hidle], ?_⟩
    rw [hidle]
    unfold onUserInteraction
    rw [if_neg (by simp [hU])]
    simp [execScripts_eq, execIframes_eq, execDelayed_eq]
  · intro hU
    constructor
    · unfold onIdle
      split
      · next h => cases s; simp_all
      · rfl
    · unfold onDelayed
      split
      · next h => cases s; simp_all
      · rfl
  · intro ts h
    have hperm := allRes_runTriggers_perm ts s
    have hall : (allRes (runTriggers ts s)).Nodup := hperm.nodup_iff.mpr h
    exact hall.sublist (executed_sublist_allRes (runTriggers ts s))

/-- A fresh engine state with one resource in each tier. -/
def c7s0 : EngineState Nat :=
  ⟨false, false, false, [1], [2], [3], []⟩

/-- A state in which interaction has already fired. -/
def c7s1 : EngineState Nat :=
  ⟨true, false, false, [1], [2], [3], []⟩

/-- C7 witness: the theorem at concrete states and a concrete trigger
sequence. -/
theorem c7_witness :
    onIdle (onIdle c7s0) = onIdle c7s0 ∧
    (onUserInteraction (onIdle c7s0)).executed =
      (onIdle c7s0).executed ++ c7s0.queuedDelayedScripts ∧
    onIdle c7s1 = { c7s1 with idleCallbackFired := true } ∧
    (runTriggers [Trigger.idle, Trigger.interaction, Trigger.delayed] c7s0).executed.Nodup :=
  ⟨(c7_trigger_controller c7s0).1.1,
   ((c7_trigger_controller c7s0).2.1 rfl rfl).2.2,
   ((c7_trigger_controller c7s1).2.2.1 rfl).1,
   (c7_trigger_controller c7s0).2.2.2 [Trigger.idle, Trigger.interaction, Trigger.delayed]
     (by decide)⟩

/-! ## C5 / C4 — manifest loader: retry policy and fallback -/

theorem loadOnce_success {oc : Nat → AttemptResult} {m : Manifest}
    (aPrev : Nat) (r : LoadTrace)
    (h : oc (aPrev + 1) = AttemptResult.success m) :
    loadOnce oc aPrev r = ⟨m, aPrev + 1, [], false⟩ := by
  unfold loadOnce
  rw [h]

theorem loadOnce_terminal {oc : Nat → AttemptResult} {k : ErrKind}
    {st : Option Nat} (aPrev : Nat) (r : LoadTrace)
    (h : oc (aPrev + 1) = AttemptResult.failure k st) (hn : NoRetryClass k st) :
    loadOnce oc aPrev r = ⟨fallbackDO, aPrev + 1, [], true⟩ := by
  unfold loadOnce
  rw [h]
  dsimp only
  rw [if_pos hn]

theorem loadOnce_retry {oc : Nat → AttemptResult} {k : ErrKind}
    {st : Option Nat} (aPrev : Nat) (r : LoadTrace)
    (h : oc (aPrev + 1) = AttemptResult.failure k st)
    (hn : ¬NoRetryClass k st) (ha : aPrev + 1 < maxAttempts) :
    loadOnce oc aPrev r =
      ⟨r.manifest, r.attempts, backoffMs (aPrev + 1) :: r.backoffs,
        r.telemetry⟩ := by
  unfold loadOnce
  rw [h]
  dsimp only
  rw [if_neg hn, if_pos ha]

theorem loadOnce_final {oc : Nat → AttemptResult} {k : ErrKind}
    {st : Option Nat} (aPrev : Nat) (r : LoadTrace)
    (h : oc (aPrev + 1) = AttemptResult.failure k st)
    (hn : ¬NoRetryClass k st) (ha : ¬(aPrev + 1 < maxAttempts)) :
    loadOnce oc aPrev r = ⟨fallbackDO, aPrev + 1, [], true⟩ := by
  unfold loadOnce
  rw [h]
  dsimp only
  rw [if_neg hn, if_neg ha]

theorem loadFrom_succ_def (oc : Nat → AttemptResult) (fuel aPrev : Nat) :
    loadFrom oc (fuel + 1) aPrev =
      loadOnce oc aPrev (loadFrom oc fuel (aPrev + 1)) := rfl

/-- Every run makes at least one fetch attempt past `aPrev`. -/
theorem loadFrom_attempts_ge (oc : Nat → AttemptResult) :
    ∀ (fuel aPrev : Nat), aPrev + 1 ≤ (loadFrom oc fuel aPrev).attempts := by
  intro fuel
  induction fuel with
  | zero => intro aPrev; exact Nat.le_refl _
  | succ fuel ih =>
    intro aPrev
    rw [loadFrom_succ_def]
    rcases h : oc (aPrev + 1) with m | ⟨k, st⟩
    · rw [loadOnce_success aPrev _ h]
    · by_cases hn : NoRetryClass k st
      · rw [loadOnce_terminal aPrev _ h hn]
      · by_cases ha : aPrev + 1 < maxAttempts
        · rw [loadOnce_retry aPrev _ h hn ha]
          have := ih (aPrev + 1)
          dsimp only
          omega
        · rw [loadOnce_final aPrev _ h hn ha]

/-- A run of the DealerOn loader always takes one of five shapes: success or
final failure after 1, 2 or 3 attempts, with the backoffs `[]`, `[1000]`
or `[1000, 2000]` accordingly. -/
theorem loadDO_cases (oc : Nat → AttemptResult) :
    ((loadManifestDO oc).attempts = 1 ∧ (loadManifestDO oc).backoffs = []) ∨
    ((loadManifestDO oc).attempts = 2 ∧ (loadManifestDO oc).backoffs = [1000]) ∨
    ((loadManifestDO oc).attempts = 3 ∧
      (loadManifestDO oc).backoffs = [1000, 2000]) := by
  have e0 : loadManifestDO oc =
      loadOnce oc 0 (loadOnce oc 1 (loadOnce oc 2 (loadFrom oc 0 3))) := rfl
  rw [e0]
  rcases h1 : oc 1 with m1 | ⟨k1, st1⟩
  · left
    rw [loadOnce_success 0 _ h1]
    exact ⟨rfl, rfl⟩
  · by_cases hn1 : NoRetryClass k1 st1
    · left
      rw [loadOnce_terminal 0 _ h1 hn1]
      exact ⟨rfl, rfl⟩
    · rw [loadOnce_retry 0 _ h1 hn1 (by decide)]
      rcases h2 : oc 2 with m2 | ⟨k2, st2⟩
      · right; left
        rw [loadOnce_success 1 _ h2]
        exact ⟨by norm_num, by norm_num [backoffMs]⟩
      · by_cases hn2 : NoRetryClass k2 st2
        · right; left
          rw [loadOnce_terminal 1 _ h2 hn2]
          exact ⟨by norm_num, by norm_num [backoffMs]⟩
        · rw [loadOnce_retry 1 _ h2 hn2 (by decide)]
          rcases h3 : oc 3 with m3 | ⟨k3, st3⟩
          · right; right
            rw [loadOnce_success 2 _ h3]
            exact ⟨by norm_num, by norm_num [backoffMs]⟩
          · by_cases hn3 : NoRetryClass k3 st3
            · right; right
              rw [loadOnce_terminal 2 _ h3 hn3]
              exact ⟨by norm_num, by norm_num [backoffMs]⟩
            · right; right
              rw [loadOnce_final 2 _ h3 hn3 (by decide)]
              exact ⟨by norm_num, by norm_num [backoffMs]⟩

/-- C5: a first attempt classified `NOT_FOUND` (HTTP 404) or
`JSON_PARSE_ERROR` yields the fallback manifest immediately — one attempt,
no backoff, telemetry fired; in every run at most `maxAttempts` (3) attempts
occur, the backoff waits grow as `2^i · 1000` ms and are strictly
increasing; and a retryable first failure (`TIMEOUT`, `SERVER_ERROR` or
`NETWORK_ERROR`) leads to at least a second attempt. -/
theorem c5_retry_policy (oc : Nat → AttemptResult) :
    (∀ (k : ErrKind) (st : Option Nat),
      oc 1 = AttemptResult.failure k st → NoRetryClass k st →
      loadManifestDO oc = ⟨fallbackDO, 1, [], true⟩) ∧
    (loadManifestDO oc).attempts ≤ maxAttempts ∧
    (loadManifestDO oc).backoffs =
      (List.range ((loadManifestDO oc).attempts - 1)).map (fun i => 2 ^ i * 1000) ∧
    List.Chain' (· < ·) (loadManifestDO oc).backoffs ∧
    (∀ (k : ErrKind) (st : Option Nat),
      oc 1 = AttemptResult.failure k st → ¬NoRetryClass k st →
      2 ≤ (loadManifestDO oc).attempts) := by
  refine ⟨?_, ?_, ?_, ?_, ?_⟩
  · intro k st h hn
    have e0 : loadManifestDO oc = loadOnce oc 0 (loadFrom oc 2 1) := rfl
    rw [e0]
    exact loadOnce_terminal 0 _ h hn
  · rcases loadDO_cases oc with ⟨h, _⟩ | ⟨h, _⟩ | ⟨h, _⟩ <;> rw [h] <;> decide
  · rcases loadDO_cases oc with ⟨h, hb⟩ | ⟨h, hb⟩ | ⟨h, hb⟩ <;> rw [h, hb] <;> decide
  · rcases loadDO_cases oc with ⟨_, hb⟩ | ⟨_, hb⟩ | ⟨_, hb⟩ <;> rw [hb] <;> simp
  · intro k st h hn
    have e0 : loadManifestDO oc = loadOnce oc 0 (loadFrom oc 2 1) := rfl
    rw [e0, loadOnce_retry 0 _ h hn (by decide)]
    have := loadFrom_attempts_ge oc 2 1
    dsimp only
    omega

/-- An outcome stream in which every attempt 404s. -/
def oc404 : Nat → AttemptResult :=
  fun _ => AttemptResult.failure ErrKind.generic (some 404)

/-- An outcome stream in which every attempt returns HTTP 500. -/
def oc500 : Nat → AttemptResult :=
  fun _ => AttemptResult.failure ErrKind.generic (some 500)

/-- C5 witness: the theorem at a stream of 404s (terminal on attempt one)
and at a stream of 500s (retried). -/
theorem c5_witness :
    loadManifestDO oc404 = ⟨fallbackDO, 1, [], true⟩ ∧
    2 ≤ (loadManifestDO oc500).attempts :=
  ⟨(c5_retry_policy oc404).1 ErrKind.generic (some 404) rfl (by decide),
   (c5_retry_policy oc500).2.2.2.2 ErrKind.generic (some 500) rfl (by decide)⟩

/-- C4 counterexample: in loader-v2.js, a manifest load ending in final
failure (its single attempt fails — there are no retries) resolves with the
v2 fallback manifest, but emits NO telemetry error event, and that fallback
does NOT have interception disabled. -/
theorem c4_counterexample :
    (loadManifestV2 (AttemptResult.failure ErrKind.generic (some 500))).telemetry
        = false ∧
    (loadManifestV2 (AttemptResult.failure ErrKind.generic
        (some 500))).manifest.disableInterception = false :=
  ⟨rfl, rfl⟩

/-- C4 amended: in the DealerOn loader, whenever manifest loading ends in
final failure (every attempt fails), `load` emits the `manifest_error`
telemetry event and resolves with the hardcoded fallback manifest, which has
interception disabled; in every run the loader resolves with either a
fetched manifest or the fallback, so the in-memory manifest is never null
once loading completes.  The v2 loader also resolves any failure with its
own fallback manifest (never null), but emits no telemetry and its fallback
does not disable interception. -/
theorem c4_fallback_on_failure (oc : Nat → AttemptResult)
    (hfail : ∀ (a : Nat) (m : Manifest), oc a ≠ AttemptResult.success m) :
    ((loadManifestDO oc).telemetry = true ∧
     (loadManifestDO oc).manifest = fallbackDO ∧
     fallbackDO.disableInterception = true) ∧
    (∀ oc' : Nat → AttemptResult,
      (loadManifestDO oc').manifest = fallbackDO ∨
      ∃ (a : Nat) (m : Manifest), oc' a = AttemptResult.success m ∧
        (loadManifestDO oc').manifest = m) ∧
    (∀ (k : ErrKind) (st : Option Nat),
      (loadManifestV2 (AttemptResult.failure k st)).manifest = fallbackV2 ∧
      (loadManifestV2 (AttemptResult.failure k st)).telemetry = false) := by
  refine ⟨?_, ?_, ?_⟩
  · have e0 : loadManifestDO oc =
        loadOnce oc 0 (loadOnce oc 1 (loadOnce oc 2 (loadFrom oc 0 3))) := rfl
    rcases h1 : oc 1 with m1 | ⟨k1, st1⟩
    · exact absurd h1 (hfail 1 m1)
    · by_cases hn1 : NoRetryClass k1 st1
      · rw [e0, loadOnce_terminal 0 _ h1 hn1]
        exact ⟨rfl, rfl, rfl⟩
      · rw [e0, loadOnce_retry 0 _ h1 hn1 (by decide)]
        rcases h2 : oc 2 with m2 | ⟨k2, st2⟩
        · exact absurd h2 (hfail 2 m2)
        · by_cases hn2 : NoRetryClass k2 st2
          · rw [loadOnce_terminal 1 _ h2 hn2]
            exact ⟨rfl, rfl, rfl⟩
          · rw [loadOnce_retry 1 _ h2 hn2 (by decide)]
            rcases h3 : oc 3 with m3 | ⟨k3, st3⟩
            · exact absurd h3 (hfail 3 m3)
            · by_cases hn3 : NoRetryClass k3 st3
              · rw [loadOnce_terminal 2 _ h3 hn3]
                exact ⟨rfl, rfl, rfl⟩
              · rw [loadOnce_final 2 _ h3 hn3 (by decide)]
                exact ⟨rfl, rfl, rfl⟩
  · intro oc'
    have e0 : loadManifestDO oc' =
        loadOnce oc' 0 (loadOnce oc' 1 (loadOnce oc' 2 (loadFrom oc' 0 3))) := rfl
    rcases h1 : oc' 1 with m1 | ⟨k1, st1⟩
    · right
      exact ⟨1, m1, h1, by rw [e0, loadOnce_success 0 _ h1]⟩
    · by_cases hn1 : NoRetryClass k1 st1
      · left
        rw [e0, loadOnce_terminal 0 _ h1 hn1]
      · rcases h2 : oc' 2 with m2 | ⟨k2, st2⟩
        · right
          refine ⟨2, m2, h2, ?_⟩
          rw [e0, loadOnce_retry 0 _ h1 hn1 (by decide),
            loadOnce_success 1 _ h2]
        · by_cases hn2 : NoRetryClass k2 st2
          · left
            rw [e0, loadOnce_retry 0 _ h1 hn1 (by decide),
              loadOnce_terminal 1 _ h2 hn2]
          · rcases h3 : oc' 3 with m3 | ⟨k3, st3⟩
            · right
              refine ⟨3, m3, h3, ?_⟩
              rw [e0, loadOnce_retry 0 _ h1 hn1 (by decide),
                loadOnce_retry 1 _ h2 hn2 (by decide),
                loadOnce_success 2 _ h3]
            · left
              by_cases hn3 : NoRetryClass k3 st3
              · rw [e0, loadOnce_retry 0 _ h1 hn1 (by decide),
                  loadOnce_retry 1 _ h2 hn2 (by decide),
                  loadOnce_terminal 2 _ h3 hn3]
              · rw [e0, loadOnce_retry 0 _ h1 hn1 (by decide),
                  loadOnce_retry 1 _ h2 hn2 (by decide),
                  loadOnce_final 2 _ h3 hn3 (by decide)]
  · intro k st
    exact ⟨rfl, rfl⟩

/-- C4 witness: the amended theorem at the all-500 outcome stream. -/
theorem c4_witness :
    ((loadManifestDO oc500).telemetry = true ∧
     (loadManifestDO oc500).manifest = fallbackDO ∧
     fallbackDO.disableInterception = true) ∧
    (∀ oc' : Nat → AttemptResult,
      (loadManifestDO oc').manifest = fallbackDO ∨
      ∃ (a : Nat) (m : Manifest), oc' a = AttemptResult.success m ∧
        (loadManifestDO oc').manifest = m) ∧
    (∀ (k : ErrKind) (st : Option Nat),
      (loadManifestV2 (AttemptResult.failure k st)).manifest = fallbackV2 ∧
      (loadManifestV2 (AttemptResult.failure k st)).telemetry = false) :=
  c4_fallback_on_failure oc500 (fun _ _ h => AttemptResult.noConfusion h)

/-! ## C6 — pattern matcher with the compile cache -/

/-- Under a consistent cache, `getRegex` returns exactly what the engine
compiles from the pattern's interior (whether cached or fresh). -/
theorem getRegex_fst {ρ : Type} (E : RegexEngine ρ) (c : RegexCache ρ)
    (p : String) (hc : CacheConsistent E c) :
    (getRegex E c p).1 = E.compile (sliceInterior p) := by
  rcases h : List.lookup p c with _ | r
  · simp [getRegex, h]
  · have hr := hc p r h
    simp [getRegex, h, hr]

/-- After `getRegex`, the pattern is bound in the cache to the returned
compile result. -/
theorem getRegex_snd_lookup {ρ : Type} (E : RegexEngine ρ) (c : RegexCache ρ)
    (p : String) :
    List.lookup p (getRegex E c p).2 = some ((getRegex E c p).1) := by
  rcases h : List.lookup p c with _ | r
  · simp [getRegex, h]
  · simp [getRegex, h]

/-- `getRegex` preserves cache consistency. -/
theorem getRegex_snd_consistent {ρ : Type} (E : RegexEngine ρ)
    (c : RegexCache ρ) (p : String) (hc : CacheConsistent E c) :
    CacheConsistent E (getRegex E c p).2 := by
  rcases h : List.lookup p c with _ | r
  · intro q r' hq
    simp only [getRegex, h] at hq
    by_cases hqp : q = p
    · subst hqp
      simp [List.lookup_cons] at hq
      exact hq.symm
    · simp [List.lookup_cons, beq_false_of_ne hqp] at hq
      exact hc q r' hq
  · intro q r' hq
    simp only [getRegex, h] at hq
    exact hc q r' hq

/-- On a non-empty url, matching a singleton pattern list is one
`patternStep`. -/
theorem matchesCached_single {ρ : Type} (E : RegexEngine ρ)
    (c : RegexCache ρ) (u p : String) (hu : u ≠ "") :
    matchesPatternCached E c u [p] = patternStep E c u p := by
  unfold matchesPatternCached
  rw [if_neg hu, if_neg (by simp)]
  unfold matchesSomeAux
  rcases h : patternStep E c u p with ⟨b, c'⟩
  cases b
  · unfold matchesSomeAux
    rfl
  · rfl

/-- Under a consistent cache, a `patternStep` matches iff the literal
substring test or the compiled-regex test succeeds. -/
theorem patternStep_true_iff {ρ : Type} (E : RegexEngine ρ)
    (c : RegexCache ρ) (u p : String) (hc : CacheConsistent E c) :
    ((patternStep E c u p).1 = true ↔
      (containsSubstr u p = true ∨
        (p.startsWith "/" = true ∧ p.endsWith "/" = true ∧
          ∃ re, E.compile (sliceInterior p) = some re ∧ E.test re u = true))) := by
  unfold patternStep
  by_cases hcs : containsSubstr u p = true
  · simp [hcs]
  · rw [if_neg hcs]
    by_cases hsd : (p.startsWith "/" && p.endsWith "/") = true
    · rw [if_pos hsd]
      rcases hg : getRegex E c p with ⟨r, c2⟩
      have hr : r = E.compile (sliceInterior p) := by
        have := getRegex_fst E c p hc
        rw [hg] at this
        exact this
      rcases Bool.and_eq_true _ _ |>.mp hsd with ⟨hsw, hew⟩
      cases r with
      | none =>
        simp only [hg]
        simp [hcs, ← hr]
      | some re =>
        simp only [hg]
        simp [hcs, hsw, hew, ← hr]
    · rw [if_neg hsd]
      simp only [Bool.false_eq_true, false_iff]
      rintro (h | ⟨hsw, hew, _⟩)
      · exact hcs h
      · exact hsd (Bool.and_eq_true _ _ |>.mpr ⟨hsw, hew⟩)

/-- A `patternStep` that takes the regex branch leaves behind exactly the
`getRegex` cache. -/
theorem matchesCached_snd_eq {ρ : Type} (E : RegexEngine ρ)
    (c : RegexCache ρ) (u p : String) (hu : u ≠ "")
    (hcs : containsSubstr u p = false)
    (hsd : (p.startsWith "/" && p.endsWith "/") = true) :
    (matchesPatternCached E c u [p]).2 = (getRegex E c p).2 := by
  rw [matchesCached_single E c u p hu]
  unfold patternStep
  rw [if_neg (by simp [hcs]), if_pos hsd]
  rcases hg : getRegex E c p with ⟨r, c2⟩
  cases r <;> rfl

/-- Matching a singleton pattern preserves cache consistency. -/
theorem matchesCached_snd_consistent {ρ : Type} (E : RegexEngine ρ)
    (c : RegexCache ρ) (u p : String) (hu : u ≠ "")
    (hc : CacheConsistent E c) :
    CacheConsistent E (matchesPatternCached E c u [p]).2 := by
  rw [matchesCached_single E c u p hu]
  unfold patternStep
  split
  · exact hc
  · split
    · rcases hg : getRegex E c p with ⟨r, c2⟩
      have h2 := getRegex_snd_consistent E c p hc
      rw [hg] at h2
      cases r <;> exact h2
    · exact hc

/-- C6: for all patterns `p` and urls `u`, `matches(u, [p])` is true iff `u`
contains `p` as a substring, or `p` is slash-delimited and its interior,
compiled as a regex, matches `u`.  A malformed regex interior (the compile
returns `none`, modelling the thrown exception being caught) never matches;
it is recorded in the cache as a permanent non-match, so the same pattern
still never regex-matches on any later url against the updated cache. -/
theorem c6_pattern_matcher {ρ : Type} (E : RegexEngine ρ) (c : RegexCache ρ)
    (hc : CacheConsistent E c) (u p : String) (hu : u ≠ "") :
    ((matchesPatternCached E c u [p]).1 = true ↔
      (containsSubstr u p = true ∨
        (p.startsWith "/" = true ∧ p.endsWith "/" = true ∧
          ∃ re, E.compile (sliceInterior p) = some re ∧ E.test re u = true))) ∧
    (E.compile (sliceInterior p) = none → containsSubstr u p = false →
      (matchesPatternCached E c u [p]).1 = false) ∧
    (E.compile (sliceInterior p) = none → containsSubstr u p = false →
      p.startsWith "/" = true → p.endsWith "/" = true →
      (List.lookup p (matchesPatternCached E c u [p]).2 = some none ∧
       ∀ u' : String, containsSubstr u' p = false →
         (matchesPatternCached E (matchesPatternCached E c u [p]).2 u' [p]).1
           = false)) := by
  have hiff : (matchesPatternCached E c u [p]).1 = true ↔
      (containsSubstr u p = true ∨
        (p.startsWith "/" = true ∧ p.endsWith "/" = true ∧
          ∃ re, E.compile (sliceInterior p) = some re ∧ E.test re u = true)) := by
    rw [matchesCached_single E c u p hu]
    exact patternStep_true_iff E c u p hc
  have hfalse : E.compile (sliceInterior p) = none →
      containsSubstr u p = false →
      (matchesPatternCached E c u [p]).1 = false := by
    intro hn hcs
    cases hx : (matchesPatternCached E c u [p]).1
    · rfl
    · exfalso
      rcases hiff.mp hx with h | ⟨_, _, re, hre, _⟩
      · rw [hcs] at h
        exact Bool.false_ne_true h
      · rw [hn] at hre
        exact Option.noConfusion hre
  refine ⟨hiff, hfalse, ?_⟩
  intro hn hcs hsw hew
  have hsd : (p.startsWith "/" && p.endsWith "/") = true :=
    Bool.and_eq_true _ _ |>.mpr ⟨hsw, hew⟩
  have hsnd := matchesCached_snd_eq E c u p hu hcs hsd
  have hcons2 : CacheConsistent E (matchesPatternCached E c u [p]).2 :=
    matchesCached_snd_consistent E c u p hu hc
  constructor
  · rw [hsnd, getRegex_snd_lookup, getRegex_fst E c p hc, hn]
  · intro u' hcs'
    by_cases hu' : u' = ""
    · subst hu'
      simp [matchesPatternCached]
    · rw [matchesCached_single E _ u' p hu']
      cases hx : (patternStep E (matchesPatternCached E c u [p]).2 u' p).1
      · rfl
      · exfalso
        rcases (patternStep_true_iff E _ u' p hcons2).mp hx with
          h | ⟨_, _, re, hre, _⟩
        · rw [hcs'] at h
          exact Bool.false_ne_true h
        · rw [hn] at hre
          exact Option.noConfusion hre

/-- A degenerate host engine on which every compile throws. -/
def failEngine : RegexEngine Unit :=
  { compile := fun _ => none, test := fun _ _ => false }

/-- C6 witness: the theorem at a concrete engine, empty cache,
url `"a"` and pattern `"b"`. -/
theorem c6_witness :
    ((matchesPatternCached failEngine [] "a" ["b"]).1 = true ↔
      (containsSubstr "a" "b" = true ∨
        ("b".startsWith "/" = true ∧ "b".endsWith "/" = true ∧
          ∃ re, failEngine.compile (sliceInterior "b") = some re ∧
            failEngine.test re "a" = true))) ∧
    (failEngine.compile (sliceInterior "b") = none →
      containsSubstr "a" "b" = false →
      (matchesPatternCached failEngine [] "a" ["b"]).1 = false) ∧
    (failEngine.compile (sliceInterior "b") = none →
      containsSubstr "a" "b" = false →
      "b".startsWith "/" = true → "b".endsWith "/" = true →
      (List.lookup "b" (matchesPatternCached failEngine [] "a" ["b"]).2 =
          some none ∧
       ∀ u' : String, containsSubstr u' "b" = false →
         (matchesPatternCached failEngine
           (matchesPatternCached failEngine [] "a" ["b"]).2 u' ["b"]).1
             = false)) :=
  c6_pattern_matcher failEngine []
    (fun _ r h => Option.noConfusion h) "a" "b" (by decide)

end SpeedLayer

